import Mathlib

/-!
Verification development for `src/LotteryDrawPage.jsx` (KaseyDraw).

The component holds five pieces of React state (`tableMax`, `seatMax`,
`table`, `seat`, `rolling`), a `roll` handler that runs a 50-tick
`setInterval` animation sampling `Math.floor(Math.random() * max) + 1`
each tick, a `reset` handler, and two numeric-input `onChange` handlers
computing `Math.max(1, +e.target.value)`.

The embedding below models:
* the component state plus the active interval as an explicit system
  state (`Sys`); the interval record (`Timer`) carries the bound values
  captured by the `roll` closure, matching React's closure semantics in
  which an in-flight interval keeps reading the `tableMax`/`seatMax`
  values of the render that created it;
* one interval callback invocation as `tick`, parameterised by the
  `Math.random()` outcome `r` (a rational with `0 ≤ r < 1`);
* the confetti side effect as a counter (`confettiCount`) so that
  "fires exactly once" is provable;
* the JavaScript numeric coercion `+e.target.value` of the `onChange`
  handlers as `jsToNumber : String → Option ℚ`, where `none` plays the
  role of `NaN`.
-/

namespace KaseyDraw

/-- The argument `type` of `roll` is one of the strings `"table"` and
`"seat"`. -/
inductive DrawKind where
  | table
  | seat
deriving DecidableEq, Repr

/-- `const FLASH_COUNT = 50;` — number of interim flashes before the
final result. -/
def FLASH_COUNT : ℤ := 50

/-- `const FLASH_INTERVAL = 100;` — milliseconds between flashes. -/
def FLASH_INTERVAL : ℤ := 100

/-- The five `useState` hooks of `LotteryDrawPage`:
`tableMax`, `seatMax`, `table`, `seat`, `rolling`.  Results are
`Option ℤ` with `none` for the JavaScript `null` initial/reset value. -/
structure DrawState where
  tableMax : ℤ
  seatMax : ℤ
  table : Option ℤ
  seat : Option ℤ
  rolling : Bool
deriving DecidableEq, Repr

/-- The `setInterval` created by `roll`: the draw kind, the `tableMax`
and `seatMax` values captured by the interval callback's closure at the
render that invoked `roll`, and the remaining value of the mutable
`flashes` counter (initially `FLASH_COUNT`). -/
structure Timer where
  kind : DrawKind
  capturedTableMax : ℤ
  capturedSeatMax : ℤ
  flashes : ℤ
deriving DecidableEq, Repr

/-- The whole system: component state, the active interval (if any), and
a counter of how many times `confetti(...)` has fired. -/
structure Sys where
  st : DrawState
  timer : Option Timer
  confettiCount : ℕ
deriving DecidableEq, Repr

/-- `const value = Math.floor(Math.random() * max) + 1;` — the sampled
value for a single tick, with `r` the outcome of `Math.random()`. -/
def sample (max : ℤ) (r : ℚ) : ℤ := ⌊r * (max : ℚ)⌋ + 1

/-- The `roll` handler (lines 46–67): `if (rolling) return;` then
`setRolling(true)` and `setInterval(..., FLASH_INTERVAL)`.  The created
interval closure captures the current `tableMax`/`seatMax` and starts
with `flashes = FLASH_COUNT`. -/
def roll (type : DrawKind) (s : Sys) : Sys :=
  if s.st.rolling then s
  else
    { st := { s.st with rolling := true },
      timer := some { kind := type,
                      capturedTableMax := s.st.tableMax,
                      capturedSeatMax := s.st.seatMax,
                      flashes := FLASH_COUNT },
      confettiCount := s.confettiCount }

/-- One invocation of the interval callback (lines 51–66): pick
`max` by kind from the closure-captured bounds, sample a value, assign
it to `table` or `seat`, decrement `flashes`, and when `flashes <= 0`
clear the interval, set `rolling` to false and fire confetti.  When no
interval is active the callback cannot run, so the state is returned
unchanged. -/
def tick (r : ℚ) (s : Sys) : Sys :=
  match s.timer with
  | none => s
  | some t =>
    let max := match t.kind with
      | .table => t.capturedTableMax
      | .seat => t.capturedSeatMax
    let value := sample max r
    let st1 := match t.kind with
      | .table => { s.st with table := some value }
      | .seat => { s.st with seat := some value }
    let flashes := t.flashes - 1
    if flashes ≤ 0 then
      { st := { st1 with rolling := false },
        timer := none,
        confettiCount := s.confettiCount + 1 }
    else
      { st := st1,
        timer := some { t with flashes := flashes },
        confettiCount := s.confettiCount }

/-- The `reset` handler (lines 69–72): `setTable(null); setSeat(null);`. -/
def reset (s : Sys) : Sys :=
  { s with st := { s.st with table := none, seat := none } }

/-- The state update performed by `setTableMax` when the table-bound
editor fires (the stored value `v` is whatever the handler computed). -/
def setTableMax (v : ℤ) (s : Sys) : Sys :=
  { s with st := { s.st with tableMax := v } }

/-- The state update performed by `setSeatMax` when the seat-bound
editor fires. -/
def setSeatMax (v : ℤ) (s : Sys) : Sys :=
  { s with st := { s.st with seatMax := v } }

/-- Run the interval callback once per element of `rs`, each element
being that tick's `Math.random()` outcome. -/
def ticks (rs : List ℚ) (s : Sys) : Sys := rs.foldl (fun a r => tick r a) s

/-- Mount-time state: `useState(30)`, `useState(10)`, `useState(null)`,
`useState(null)`, `useState(false)`; no interval, no confetti yet. -/
def initSys : Sys :=
  { st := { tableMax := 30, seatMax := 10, table := none, seat := none,
            rolling := false },
    timer := none,
    confettiCount := 0 }

/-- JavaScript string-whitespace test (the characters relevant to
`ToNumber` trimming for ordinary inputs). -/
def isJsSpace (c : Char) : Bool :=
  c = ' ' || c = '\t' || c = '\n' || c = '\r'

/-- Digit list to natural number, most significant first. -/
def digitsVal (cs : List Char) : ℕ :=
  cs.foldl (fun a c => 10 * a + (c.toNat - 48)) 0

/-- The exponent suffix of a numeral, after the `e`/`E` marker: an
optional sign followed by one or more digits.  Returns the scale factor
the exponent applies to the mantissa (`10^d` or `1/10^d`), or `none`
(`NaN`) if the suffix is malformed (as in `"1e"`, `"1e+"`, `"1e5.5"`). -/
def expScale (cs : List Char) : Option ℚ :=
  match cs with
  | [] => none
  | '-' :: ds =>
    if !ds.isEmpty && ds.all Char.isDigit then some (1 / 10 ^ digitsVal ds)
    else none
  | '+' :: ds =>
    if !ds.isEmpty && ds.all Char.isDigit then some ((10:ℚ) ^ digitsVal ds)
    else none
  | ds =>
    if ds.all Char.isDigit then some ((10:ℚ) ^ digitsVal ds)
    else none

/-- An unsigned decimal numeral, with JavaScript's exponent notation:
`digits`, `digits.digits`, `digits.` or `.digits`, each optionally
followed by `e`/`E` and a signed exponent (so `"1e5"`, `"1E5"`,
`"1.5e-2"`, `"5.e1"` are numerals); anything else is `NaN` (`none`). -/
def decNumeral (cs : List Char) : Option ℚ :=
  match cs.span Char.isDigit with
  | (intPart, rest) =>
    match rest with
    | [] => if intPart.isEmpty then none else some (digitsVal intPart)
    | '.' :: rest2 =>
      match rest2.span Char.isDigit with
      | (frac, rest3) =>
        if intPart.isEmpty && frac.isEmpty then none
        else
          let mant : ℚ := (digitsVal intPart : ℚ) + (digitsVal frac : ℚ) / 10 ^ frac.length
          match rest3 with
          | [] => some mant
          | 'e' :: expPart => (expScale expPart).map (fun sc => mant * sc)
          | 'E' :: expPart => (expScale expPart).map (fun sc => mant * sc)
          | _ => none
    | 'e' :: expPart =>
      if intPart.isEmpty then none
      else (expScale expPart).map (fun sc => (digitsVal intPart : ℚ) * sc)
    | 'E' :: expPart =>
      if intPart.isEmpty then none
      else (expScale expPart).map (fun sc => (digitsVal intPart : ℚ) * sc)
    | _ => none

/-- The JavaScript numeric coercion `+e.target.value` (lines 86 and 97)
applied to the input's string value, restricted to the forms the number
input can deliver: after trimming whitespace, the empty string coerces
to `0`, an optionally signed decimal numeral — including exponent
notation such as `"1e5"` — to its value, and anything else to `NaN`,
modelled as `none`. -/
def jsToNumber (s : String) : Option ℚ :=
  let cs := ((s.toList.dropWhile isJsSpace).reverse.dropWhile isJsSpace).reverse
  match cs with
  | [] => some 0
  | '-' :: rest => (decNumeral rest).map (fun q => -q)
  | '+' :: rest => decNumeral rest
  | _ => decNumeral cs

/-- JavaScript `Math.max` on two numbers: `NaN` (here `none`) if either
argument is `NaN`, otherwise the larger value. -/
def jsMax (a b : Option ℚ) : Option ℚ :=
  match a, b with
  | some x, some y => some (max x y)
  | _, _ => none

/-- The bound editors' `onChange` body,
`Math.max(1, +e.target.value)` (identical at lines 86 and 97): the value
stored into `tableMax` resp. `seatMax`. -/
def boundOnChange (str : String) : Option ℚ :=
  jsMax (some 1) (jsToNumber str)


theorem sample_mem (max : ℤ) (r : ℚ) (h1 : 1 ≤ max) (hr0 : 0 ≤ r) (hr1 : r < 1) :
    1 ≤ sample max r ∧ sample max r ≤ max := by
  have hm0 : (0:ℚ) < (max:ℚ) := by exact_mod_cast lt_of_lt_of_le zero_lt_one h1
  constructor
  · have h0 : (0:ℚ) ≤ r * (max:ℚ) := mul_nonneg hr0 (le_of_lt hm0)
    have hf : (0:ℤ) ≤ ⌊r * (max:ℚ)⌋ := Int.floor_nonneg.mpr h0
    unfold sample; omega
  · have hlt : r * (max:ℚ) < (max:ℚ) := by
      have := mul_lt_mul_of_pos_right hr1 hm0
      simpa using this
    have hf : ⌊r * (max:ℚ)⌋ < max := Int.floor_lt.mpr (by exact_mod_cast hlt)
    unfold sample; omega

theorem tick_of_none (r : ℚ) (s : Sys) (h : s.timer = none) : tick r s = s := by
  simp [tick, h]

theorem tick_eq_table (r : ℚ) (s : Sys) (t : Timer) (h : s.timer = some t)
    (hk : t.kind = .table) :
    tick r s =
      if t.flashes - 1 ≤ 0 then
        { st := { s.st with
                  table := some (sample t.capturedTableMax r)
                  rolling := false }
          timer := none
          confettiCount := s.confettiCount + 1 }
      else
        { st := { s.st with table := some (sample t.capturedTableMax r) }
          timer := some { t with flashes := t.flashes - 1 }
          confettiCount := s.confettiCount } := by
  simp [tick, h, hk]

theorem tick_eq_seat (r : ℚ) (s : Sys) (t : Timer) (h : s.timer = some t)
    (hk : t.kind = .seat) :
    tick r s =
      if t.flashes - 1 ≤ 0 then
        { st := { s.st with
                  seat := some (sample t.capturedSeatMax r)
                  rolling := false }
          timer := none
          confettiCount := s.confettiCount + 1 }
      else
        { st := { s.st with seat := some (sample t.capturedSeatMax r) }
          timer := some { t with flashes := t.flashes - 1 }
          confettiCount := s.confettiCount } := by
  simp [tick, h, hk]

theorem tick_parts (r : ℚ) (s : Sys) (t : Timer) (h : s.timer = some t) :
    (tick r s).timer =
      (if t.flashes - 1 ≤ 0 then none else some { t with flashes := t.flashes - 1 }) ∧
    (tick r s).confettiCount =
      (if t.flashes - 1 ≤ 0 then s.confettiCount + 1 else s.confettiCount) ∧
    (tick r s).st.rolling = (if t.flashes - 1 ≤ 0 then false else s.st.rolling) ∧
    (tick r s).st.tableMax = s.st.tableMax ∧
    (tick r s).st.seatMax = s.st.seatMax := by
  cases hk : t.kind
  · rw [tick_eq_table r s t h hk]; split <;> simp [hk]
  · rw [tick_eq_seat r s t h hk]; split <;> simp [hk]

theorem ticks_nil (s : Sys) : ticks [] s = s := rfl

theorem ticks_cons (r : ℚ) (rs : List ℚ) (s : Sys) :
    ticks (r :: rs) s = ticks rs (tick r s) := rfl

theorem ticks_append (a b : List ℚ) (s : Sys) :
    ticks (a ++ b) s = ticks b (ticks a s) := by
  simp [ticks]

theorem ticks_active (rs : List ℚ) (s : Sys) (t : Timer)
    (h : s.timer = some t) (hlt : (rs.length : ℤ) < t.flashes) :
    (ticks rs s).timer = some { t with flashes := t.flashes - rs.length } ∧
    (ticks rs s).confettiCount = s.confettiCount ∧
    (ticks rs s).st.rolling = s.st.rolling := by
  induction rs generalizing s t with
  | nil => simp [ticks_nil, h]
  | cons r rs ih =>
    rw [ticks_cons]
    obtain ⟨h1, h2, h3, _, _⟩ := tick_parts r s t h
    have hne : ¬ (t.flashes - 1 ≤ 0) := by
      simp at hlt; omega
    rw [if_neg hne] at h1 h2 h3
    have hlt2 : ((rs.length : ℤ)) < ({ t with flashes := t.flashes - 1 } : Timer).flashes := by
      simp at hlt ⊢; omega
    obtain ⟨a, b, c⟩ := ih (tick r s) _ h1 hlt2
    refine ⟨?_, by rw [b, h2], by rw [c, h3]⟩
    rw [a]
    congr 1
    simp
    omega

theorem ticks_complete (rs : List ℚ) (s : Sys) (t : Timer)
    (h : s.timer = some t) (hf : t.flashes = rs.length) (hn : rs ≠ []) :
    (ticks rs s).timer = none ∧ (ticks rs s).st.rolling = false ∧
    (ticks rs s).confettiCount = s.confettiCount + 1 := by
  induction rs generalizing s t with
  | nil => exact absurd rfl hn
  | cons r rs ih =>
    rw [ticks_cons]
    obtain ⟨h1, h2, h3, _, _⟩ := tick_parts r s t h
    by_cases hrs : rs = []
    · subst hrs
      have hz : t.flashes - 1 ≤ 0 := by simp at hf; omega
      rw [if_pos hz] at h1 h2 h3
      rw [ticks_nil]
      exact ⟨h1, h3, h2⟩
    · have hpos : 0 < rs.length := List.length_pos.mpr hrs
      have hz : ¬ (t.flashes - 1 ≤ 0) := by
        simp at hf; omega
      rw [if_neg hz] at h1 h2 h3
      have hf2 : ({ t with flashes := t.flashes - 1 } : Timer).flashes = (rs.length : ℤ) := by
        simp at hf ⊢; omega
      obtain ⟨a, b, c⟩ := ih (tick r s) _ h1 hf2 hrs
      exact ⟨a, b, by rw [c, h2]⟩

theorem roll_not_rolling (type : DrawKind) (s : Sys) (h : s.st.rolling = false) :
    roll type s =
      { st := { s.st with rolling := true }
        timer := some { kind := type
                        capturedTableMax := s.st.tableMax
                        capturedSeatMax := s.st.seatMax
                        flashes := FLASH_COUNT }
        confettiCount := s.confettiCount } := by
  simp [roll, h]



/-- A state mid-animation (a table draw with 20 flashes left), for
concrete instantiation of theorems about in-progress draws. -/
def midDraw : Sys :=
  { st := { tableMax := 30, seatMax := 10, table := some 7, seat := none,
            rolling := true },
    timer := some { kind := .table, capturedTableMax := 30,
                    capturedSeatMax := 10, flashes := 20 },
    confettiCount := 0 }

/-- A state mid-animation whose captured table bound is `-2`, i.e. below
the range the bound editors can produce; used to probe the absence of a
defensive clamp inside the tick. -/
def negBoundDraw : Sys :=
  { st := { tableMax := -2, seatMax := 10, table := none, seat := none,
            rolling := true },
    timer := some { kind := .table, capturedTableMax := -2,
                    capturedSeatMax := 10, flashes := 20 },
    confettiCount := 0 }

theorem ticks_other_seat (rs : List ℚ) (s : Sys)
    (h : ∀ t, s.timer = some t → t.kind = .table) :
    (ticks rs s).st.seat = s.st.seat := by
  induction rs generalizing s with
  | nil => rfl
  | cons r rs ih =>
    rw [ticks_cons]
    cases ht : s.timer with
    | none =>
      rw [tick_of_none r s ht]
      exact ih s h
    | some t =>
      have hk := h t ht
      have hseat : (tick r s).st.seat = s.st.seat := by
        rw [tick_eq_table r s t ht hk]; split <;> rfl
      have hnext : ∀ t', (tick r s).timer = some t' → t'.kind = .table := by
        intro t' ht'
        obtain ⟨h1, _, _, _, _⟩ := tick_parts r s t ht
        rw [h1] at ht'
        by_cases hz : t.flashes - 1 ≤ 0
        · rw [if_pos hz] at ht'; exact absurd ht' (by simp)
        · rw [if_neg hz] at ht'
          simp at ht'
          rw [← ht']
          exact hk
      rw [ih (tick r s) hnext, hseat]

theorem ticks_other_table (rs : List ℚ) (s : Sys)
    (h : ∀ t, s.timer = some t → t.kind = .seat) :
    (ticks rs s).st.table = s.st.table := by
  induction rs generalizing s with
  | nil => rfl
  | cons r rs ih =>
    rw [ticks_cons]
    cases ht : s.timer with
    | none =>
      rw [tick_of_none r s ht]
      exact ih s h
    | some t =>
      have hk := h t ht
      have htab : (tick r s).st.table = s.st.table := by
        rw [tick_eq_seat r s t ht hk]; split <;> rfl
      have hnext : ∀ t', (tick r s).timer = some t' → t'.kind = .seat := by
        intro t' ht'
        obtain ⟨h1, _, _, _, _⟩ := tick_parts r s t ht
        rw [h1] at ht'
        by_cases hz : t.flashes - 1 ≤ 0
        · rw [if_pos hz] at ht'; exact absurd ht' (by simp)
        · rw [if_neg hz] at ht'
          simp at ht'
          rw [← ht']
          exact hk
      rw [ih (tick r s) hnext, htab]

theorem tick_setTableMax (v : ℤ) (r : ℚ) (s : Sys) :
    tick r (setTableMax v s) = setTableMax v (tick r s) := by
  obtain ⟨⟨tm, sm, tb, se, ro⟩, tim, cc⟩ := s
  cases tim with
  | none => rfl
  | some t =>
    obtain ⟨kind, ctm, csm, fl⟩ := t
    cases kind <;> simp [tick, setTableMax] <;> split <;> rfl

theorem tick_setSeatMax (v : ℤ) (r : ℚ) (s : Sys) :
    tick r (setSeatMax v s) = setSeatMax v (tick r s) := by
  obtain ⟨⟨tm, sm, tb, se, ro⟩, tim, cc⟩ := s
  cases tim with
  | none => rfl
  | some t =>
    obtain ⟨kind, ctm, csm, fl⟩ := t
    cases kind <;> simp [tick, setSeatMax] <;> split <;> rfl

/-- C1: for every configured bound `max ≥ 1`, every value assigned to the
corresponding result field by a draw tick — each intermediate tick value and
the final committed value, computed as `Math.floor(Math.random() * max) + 1`
(`sample`) — lies in the inclusive range `[1, max]`.  Every assignment to a
result field during a draw is made by `tick`, so this covers them all. -/
theorem C1_drawn_value_in_range (s : Sys) (t : Timer) (r : ℚ)
    (h : s.timer = some t) (hr0 : 0 ≤ r) (hr1 : r < 1) :
    (t.kind = .table → 1 ≤ t.capturedTableMax →
      (tick r s).st.table = some (sample t.capturedTableMax r) ∧
      1 ≤ sample t.capturedTableMax r ∧
      sample t.capturedTableMax r ≤ t.capturedTableMax) ∧
    (t.kind = .seat → 1 ≤ t.capturedSeatMax →
      (tick r s).st.seat = some (sample t.capturedSeatMax r) ∧
      1 ≤ sample t.capturedSeatMax r ∧
      sample t.capturedSeatMax r ≤ t.capturedSeatMax) := by
  constructor
  · intro hk h1
    have hs := sample_mem t.capturedTableMax r h1 hr0 hr1
    refine ⟨?_, hs.1, hs.2⟩
    rw [tick_eq_table r s t h hk]; split <;> rfl
  · intro hk h1
    have hs := sample_mem t.capturedSeatMax r h1 hr0 hr1
    refine ⟨?_, hs.1, hs.2⟩
    rw [tick_eq_seat r s t h hk]; split <;> rfl

/-- Witness for C1: a freshly started table draw from the mount state,
with `Math.random()` returning `1/2`. -/
theorem C1_witness :
    (roll .table initSys).timer = some ⟨.table, 30, 10, 50⟩ ∧
    (0:ℚ) ≤ 1/2 ∧ (1:ℚ)/2 < 1 ∧
    (tick (1/2) (roll .table initSys)).st.table = some (sample 30 (1/2)) ∧
    1 ≤ sample 30 (1/2) ∧ sample 30 (1/2) ≤ 30 :=
  ⟨by decide, by norm_num, by norm_num,
   (C1_drawn_value_in_range (roll .table initSys) ⟨.table, 30, 10, 50⟩ (1/2)
      (by decide) (by norm_num) (by norm_num)).1 rfl (by norm_num)⟩

/-- C2: a call to `roll` made while `rolling` is true is a no-op: the whole
system state — `table`, `seat`, `rolling`, and the active interval — is
returned unchanged, and no new timer is started. -/
theorem C2_roll_noop_while_rolling (type : DrawKind) (s : Sys)
    (h : s.st.rolling = true) : roll type s = s := by
  simp [roll, h]

/-- Witness for C2: a second draw request in the middle of a table draw. -/
theorem C2_witness :
    midDraw.st.rolling = true ∧ roll .seat midDraw = midDraw :=
  ⟨rfl, C2_roll_noop_while_rolling .seat midDraw rfl⟩

/-- C3: for every started draw the tick callback runs exactly
`FLASH_COUNT = 50` times: after a full sequence of 50 ticks the timer is
gone, `rolling` is false and confetti has fired exactly once; after every
proper prefix of those ticks the timer is still active and confetti has not
fired; and once the timer is cleared a further callback invocation changes
nothing (the timer is cleared exactly once). -/
theorem C3_fifty_ticks (type : DrawKind) (s0 : Sys) (rs : List ℚ)
    (h : s0.st.rolling = false) (hlen : rs.length = 50) :
    ((ticks rs (roll type s0)).timer = none ∧
     (ticks rs (roll type s0)).st.rolling = false ∧
     (ticks rs (roll type s0)).confettiCount = s0.confettiCount + 1) ∧
    (∀ rs1 rs2, rs = rs1 ++ rs2 → rs2 ≠ [] →
       (ticks rs1 (roll type s0)).timer ≠ none ∧
       (ticks rs1 (roll type s0)).confettiCount = s0.confettiCount) ∧
    (∀ r, tick r (ticks rs (roll type s0)) = ticks rs (roll type s0)) := by
  have hroll := roll_not_rolling type s0 h
  have htimer : (roll type s0).timer =
      some ⟨type, s0.st.tableMax, s0.st.seatMax, FLASH_COUNT⟩ := by
    rw [hroll]
  have hconf : (roll type s0).confettiCount = s0.confettiCount := by rw [hroll]
  have hfl : (⟨type, s0.st.tableMax, s0.st.seatMax, FLASH_COUNT⟩ : Timer).flashes =
      (rs.length : ℤ) := by
    simp [FLASH_COUNT, hlen]
  have hne : rs ≠ [] := by
    intro hh
    rw [hh] at hlen
    simp at hlen
  obtain ⟨a, b, c⟩ := ticks_complete rs (roll type s0) _ htimer hfl hne
  refine ⟨⟨a, b, by rw [c, hconf]⟩, ?_, ?_⟩
  · intro rs1 rs2 heq hne2
    have hsum : rs1.length + rs2.length = 50 := by
      rw [← List.length_append, ← heq, hlen]
    have hpos : 0 < rs2.length := List.length_pos.mpr hne2
    have hlt : ((rs1.length : ℤ)) <
        (⟨type, s0.st.tableMax, s0.st.seatMax, FLASH_COUNT⟩ : Timer).flashes := by
      simp [FLASH_COUNT]; omega
    obtain ⟨a1, b1, _⟩ := ticks_active rs1 (roll type s0) _ htimer hlt
    constructor
    · rw [a1]; simp
    · rw [b1, hconf]
  · intro r
    exact tick_of_none r _ a

/-- Witness for C3: a table draw from the mount state with all 50 random
outcomes equal to 0. -/
theorem C3_witness :
    initSys.st.rolling = false ∧ (List.replicate 50 (0:ℚ)).length = 50 ∧
    (((ticks (List.replicate 50 (0:ℚ)) (roll .table initSys)).timer = none ∧
      (ticks (List.replicate 50 (0:ℚ)) (roll .table initSys)).st.rolling = false ∧
      (ticks (List.replicate 50 (0:ℚ)) (roll .table initSys)).confettiCount =
        initSys.confettiCount + 1) ∧
     (∀ rs1 rs2, List.replicate 50 (0:ℚ) = rs1 ++ rs2 → rs2 ≠ [] →
        (ticks rs1 (roll .table initSys)).timer ≠ none ∧
        (ticks rs1 (roll .table initSys)).confettiCount = initSys.confettiCount) ∧
     (∀ r, tick r (ticks (List.replicate 50 (0:ℚ)) (roll .table initSys)) =
        ticks (List.replicate 50 (0:ℚ)) (roll .table initSys))) :=
  ⟨rfl, by simp, C3_fifty_ticks .table initSys (List.replicate 50 (0:ℚ)) rfl (by simp)⟩

/-- C4: for every input change on a bound editor, the stored bound is
`Math.max(1, parsedValue)`; in particular any input parsing to `0` or a
negative number stores exactly `1`. -/
theorem C4_bound_clamped (str : String) (q : ℚ) (h : jsToNumber str = some q) :
    boundOnChange str = some (max 1 q) ∧ (q ≤ 0 → boundOnChange str = some 1) := by
  constructor
  · unfold boundOnChange jsMax
    rw [h]
  · intro hq
    have hm : max (1:ℚ) q = 1 := max_eq_left (le_trans hq zero_le_one)
    unfold boundOnChange jsMax
    rw [h]
    show some (max (1:ℚ) q) = some 1
    rw [hm]

/-- Witness for C4: the input string `"-5"`. -/
theorem C4_witness :
    jsToNumber "-5" = some (-5) ∧ (-5:ℚ) ≤ 0 ∧
    boundOnChange "-5" = some (max 1 (-5)) ∧ boundOnChange "-5" = some 1 :=
  ⟨by decide, by norm_num,
   (C4_bound_clamped "-5" (-5) (by decide)).1,
   (C4_bound_clamped "-5" (-5) (by decide)).2 (by norm_num)⟩

/-- C5: `reset` sets both `table` and `seat` to the unset value and leaves
`rolling`, `tableMax`, `seatMax` (and the running timer and the confetti
count) unchanged, whatever the prior state. -/
theorem C5_reset_frame (s : Sys) :
    (reset s).st.table = none ∧ (reset s).st.seat = none ∧
    (reset s).st.rolling = s.st.rolling ∧
    (reset s).st.tableMax = s.st.tableMax ∧
    (reset s).st.seatMax = s.st.seatMax ∧
    (reset s).timer = s.timer ∧
    (reset s).confettiCount = s.confettiCount :=
  ⟨rfl, rfl, rfl, rfl, rfl, rfl, rfl⟩

/-- C6: a draw of one kind never writes the other kind's result field:
through any sequence of ticks of a table draw, `seat` is unchanged, and
symmetrically for a seat draw; in particular after a completed table draw
from the mount state `seat` remains unset. -/
theorem C6_other_field_untouched (s0 : Sys) (rs : List ℚ)
    (h : s0.st.rolling = false) :
    (ticks rs (roll .table s0)).st.seat = s0.st.seat ∧
    (ticks rs (roll .seat s0)).st.table = s0.st.table := by
  have h1 := roll_not_rolling .table s0 h
  have h2 := roll_not_rolling .seat s0 h
  constructor
  · have hcond : ∀ t, (roll .table s0).timer = some t → t.kind = .table := by
      intro t ht
      rw [h1] at ht
      simp at ht
      rw [← ht]
    rw [ticks_other_seat rs (roll .table s0) hcond, h1]
  · have hcond : ∀ t, (roll .seat s0).timer = some t → t.kind = .seat := by
      intro t ht
      rw [h2] at ht
      simp at ht
      rw [← ht]
    rw [ticks_other_table rs (roll .seat s0) hcond, h2]

/-- Witness for C6: one tick of each kind of draw from the mount state,
where both result fields start unset. -/
theorem C6_witness :
    initSys.st.rolling = false ∧
    (ticks [1/2] (roll .table initSys)).st.seat = initSys.st.seat ∧
    (ticks [1/2] (roll .seat initSys)).st.table = initSys.st.table :=
  ⟨rfl, (C6_other_field_untouched initSys [1/2] rfl).1,
   (C6_other_field_untouched initSys [1/2] rfl).2⟩

/-- C7 counterexample: the tick applies no defensive clamp to the bound.
In a table draw whose captured bound is `-2` (below 1), the tick with
`Math.random() = 1/2` assigns the value `sample (-2) (1/2) = 0`, which is
not `≥ 1` — so the sampled value does not lie in `[1, effective max]`. -/
theorem C7_counterexample :
    (tick (1/2) negBoundDraw).st.table = some (sample (-2) (1/2)) ∧
    sample (-2) (1/2) = 0 ∧ ¬ (1 ≤ sample (-2) (1/2)) := by
  refine ⟨?_, ?_, ?_⟩
  · rw [tick_eq_table (1/2) negBoundDraw ⟨.table, -2, 10, 20⟩ rfl rfl]
    rw [if_neg (by norm_num)]
  · norm_num [sample]
  · norm_num [sample]

/-- C7 amended: inside a draw tick the bound is used as captured, with no
defensive clamp; the assigned value is exactly `sample max r = ⌊r·max⌋ + 1`
on the raw bound.  For `max = 0` this still yields the well-defined value
`1`, but for negative `max` it can fall below `1`; the range guarantee
`[1, max]` holds only under the editors' invariant `max ≥ 1`. -/
theorem C7_amended_no_clamp (s : Sys) (t : Timer) (r : ℚ)
    (h : s.timer = some t) :
    (t.kind = .table → (tick r s).st.table = some (sample t.capturedTableMax r)) ∧
    (t.kind = .seat → (tick r s).st.seat = some (sample t.capturedSeatMax r)) ∧
    (∀ q, sample 0 q = 1) := by
  refine ⟨?_, ?_, ?_⟩
  · intro hk; rw [tick_eq_table r s t h hk]; split <;> rfl
  · intro hk; rw [tick_eq_seat r s t h hk]; split <;> rfl
  · intro q; simp [sample]

/-- Witness for C7 (amended): the same mid-draw state with captured bound
`-2`. -/
theorem C7_amended_witness :
    negBoundDraw.timer = some ⟨.table, -2, 10, 20⟩ ∧
    (tick (1/2) negBoundDraw).st.table = some (sample (-2) (1/2)) ∧
    sample 0 (3/4) = 1 :=
  ⟨rfl,
   (C7_amended_no_clamp negBoundDraw ⟨.table, -2, 10, 20⟩ (1/2) rfl).1 rfl,
   (C7_amended_no_clamp negBoundDraw ⟨.table, -2, 10, 20⟩ (1/2) rfl).2.2 (3/4)⟩

/-- C8: for the empty-string bound input, the JavaScript numeric coercion
yields `0`, which is then clamped, so the stored bound is exactly `1`. -/
theorem C8_empty_input :
    jsToNumber "" = some 0 ∧ boundOnChange "" = some 1 := by
  constructor <;> decide

/-- C9: the bound-editor handlers preserve the invariant `bound ≥ 1`
exactly for inputs whose numeric coercion is a real number (`some q`);
for an input coercing to `NaN` (`none`), `Math.max(1, NaN)` is `NaN` and
the stored bound is `NaN`, so the invariant is not maintained there. -/
theorem C9_handler_invariant (str : String) :
    (∀ q, jsToNumber str = some q →
      boundOnChange str = some (max 1 q) ∧ (1:ℚ) ≤ max 1 q) ∧
    (jsToNumber str = none → boundOnChange str = none) := by
  constructor
  · intro q h
    refine ⟨?_, le_max_left 1 q⟩
    unfold boundOnChange jsMax
    rw [h]
  · intro h
    unfold boundOnChange jsMax
    rw [h]

/-- Witness for C9: the numeric inputs `"7"` and `"1e5"` (exponent
notation, coerced by JavaScript to `100000`) and the non-numeric input
`"abc"`. -/
theorem C9_witness :
    (jsToNumber "7" = some 7 ∧ boundOnChange "7" = some (max 1 7) ∧
      (1:ℚ) ≤ max 1 7) ∧
    (jsToNumber "1e5" = some 100000 ∧
      boundOnChange "1e5" = some (max 1 100000) ∧ (1:ℚ) ≤ max 1 100000) ∧
    (jsToNumber "abc" = none ∧ boundOnChange "abc" = none) := by
  have he : jsToNumber "1e5" = some 100000 := by
    rw [show jsToNumber "1e5" =
          some ((digitsVal ['1'] : ℚ) * (10:ℚ) ^ digitsVal ['5']) from rfl,
        show digitsVal ['1'] = 1 from rfl, show digitsVal ['5'] = 5 from rfl]
    norm_num
  exact
    ⟨⟨by decide, ((C9_handler_invariant "7").1 7 (by decide)).1,
      ((C9_handler_invariant "7").1 7 (by decide)).2⟩,
     ⟨he, ((C9_handler_invariant "1e5").1 100000 he).1,
      ((C9_handler_invariant "1e5").1 100000 he).2⟩,
     ⟨by decide, (C9_handler_invariant "abc").2 (by decide)⟩⟩

/-- C10: every tick of a running draw samples against the bounds captured
at the moment `roll` was invoked: updating `tableMax` or `seatMax` while a
draw is in progress commutes with the remaining ticks, so it has no effect
on the sampling or the results of the in-progress draw. -/
theorem C10_captured_bounds (v : ℤ) (rs : List ℚ) (s : Sys) :
    ticks rs (setTableMax v s) = setTableMax v (ticks rs s) ∧
    ticks rs (setSeatMax v s) = setSeatMax v (ticks rs s) := by
  constructor
  · induction rs generalizing s with
    | nil => rfl
    | cons r rs ih =>
      rw [ticks_cons, tick_setTableMax, ih, ticks_cons]
  · induction rs generalizing s with
    | nil => rfl
    | cons r rs ih =>
      rw [ticks_cons, tick_setSeatMax, ih, ticks_cons]


end KaseyDraw
